import Mathlib

/-!
Verification of the stream framing and demultiplexing layer of a container
engine HTTP client (`docker/client.py`).

Bytes are modelled as natural numbers below 256; byte strings as `List Nat`.
The multiplexed wire format is: 1 channel-tag byte, 3 reserved bytes, a
4-byte big-endian unsigned payload length, then the payload bytes.
-/

namespace DockerClient

/-- `STREAM_HEADER_SIZE_BYTES` from `docker/client.py`. -/
def STREAM_HEADER_SIZE_BYTES : Nat := 8

/-- Decoding of a 4-byte big-endian unsigned integer, as performed by
`struct.unpack('>BxxxL', ...)` on bytes 4..7 of a frame header. -/
def be32decode (b4 b5 b6 b7 : Nat) : Nat :=
  ((b4 * 256 + b5) * 256 + b6) * 256 + b7

/-- The 4-byte big-endian encoding of a 32-bit unsigned length, as the
daemon's wire format prescribes. -/
def be32bytes (l : Nat) : List Nat :=
  [l / 2 ^ 24 % 256, l / 2 ^ 16 % 256, l / 2 ^ 8 % 256, l % 256]

/-- One multiplexed frame: a channel tag byte, three reserved bytes and a
payload.  The tag and the reserved bytes are kept as arbitrary naturals and
reduced mod 256 at encoding time. -/
structure Frame where
  stream_type : Nat
  r1 : Nat
  r2 : Nat
  r3 : Nat
  payload : List Nat
deriving DecidableEq, Repr

/-- A frame whose payload length fits the 4-byte length field. -/
def WellFormedFrame (f : Frame) : Prop := f.payload.length < 2 ^ 32

/-- A frame with a nonzero payload length. -/
def NonemptyFrame (f : Frame) : Prop := 0 < f.payload.length

instance (f : Frame) : Decidable (WellFormedFrame f) := by
  unfold WellFormedFrame; infer_instance

instance (f : Frame) : Decidable (NonemptyFrame f) := by
  unfold NonemptyFrame; infer_instance

/-- The 8-byte frame header: tag byte, 3 reserved bytes, big-endian length. -/
def encodeHeader (t r1 r2 r3 l : Nat) : List Nat :=
  [t % 256, r1 % 256, r2 % 256, r3 % 256] ++ be32bytes l

/-- Wire encoding of one frame: header followed by exactly the payload. -/
def encodeFrame (f : Frame) : List Nat :=
  encodeHeader f.stream_type f.r1 f.r2 f.r3 f.payload.length ++ f.payload

/-- Wire encoding of a frame sequence: concatenation of the frame encodings. -/
def encodeFrames (fs : List Frame) : List Nat :=
  (fs.map encodeFrame).flatten

/-- `Client._multiplexed_buffer_helper` from `docker/client.py`: scan the
fully materialized buffer `buf` from cursor `walker`; while at least 8 bytes
remain, read the header at the cursor (`struct.unpack_from('>BxxxL', ...)`
discards the tag byte and yields the length), slice the declared payload span
`[walker+8, walker+8+length)` (Python slicing silently truncates at the end
of the buffer), advance the cursor to the end of the span, and yield the
slice. -/
def multiplexedBufferHelper (buf : List Nat) (walker : Nat) : List (List Nat) :=
  if buf.length - walker < 8 then
    []
  else
    let rest := buf.drop walker
    let length := be32decode (rest.getD 4 0) (rest.getD 5 0) (rest.getD 6 0) (rest.getD 7 0)
    let start := walker + STREAM_HEADER_SIZE_BYTES
    ((buf.drop start).take length) :: multiplexedBufferHelper buf (start + length)
termination_by buf.length - walker
decreasing_by
  simp only [STREAM_HEADER_SIZE_BYTES]
  omega

/-- The buffered demultiplexer's chunk sequence: the generator run from
cursor 0. -/
def demuxBufferedChunks (buf : List Nat) : List (List Nat) :=
  multiplexedBufferHelper buf 0

/-- `demultiplexBuffered`: the non-streaming `attach` path joins the chunks
produced by `_multiplexed_buffer_helper` (`sep.join([...])`). -/
def demuxBufferedJoin (buf : List Nat) : List Nat :=
  (demuxBufferedChunks buf).flatten

/-- `Client._multiplexed_response_stream_helper`'s read loop from
`docker/client.py`, acting on the byte stream `s` still to be delivered by
the connection.  Per the Transport Gateway contract, `response.raw.read(n)`
returns exactly `n` bytes, or the remaining bytes when fewer than `n` are
left before EOF, so a read is `List.take`/`List.drop` on the stream.  An
empty header read breaks the loop; a header of 1..7 bytes makes
`struct.unpack('>BxxxL', header)` raise (modelled as `Except.error`); a
declared length of 0 breaks the loop; an empty payload read breaks the loop;
otherwise the payload read is yielded and the loop repeats. -/
def demuxLive (s : List Nat) : Except String (List (List Nat)) :=
  if s.length = 0 then
    Except.ok []
  else if s.length < STREAM_HEADER_SIZE_BYTES then
    Except.error "struct.error"
  else
    let header := s.take STREAM_HEADER_SIZE_BYTES
    let length := be32decode (header.getD 4 0) (header.getD 5 0)
      (header.getD 6 0) (header.getD 7 0)
    if length = 0 then
      Except.ok []
    else
      let rest := s.drop STREAM_HEADER_SIZE_BYTES
      if rest.length = 0 then
        Except.ok []
      else
        (demuxLive (rest.drop length)).map (fun tl => rest.take length :: tl)
termination_by s.length
decreasing_by
  simp only [STREAM_HEADER_SIZE_BYTES, List.length_drop]
  omega

end DockerClient

namespace DockerClient

lemma be32decode_be32bytes {l : Nat} (h : l < 2 ^ 32) :
    be32decode (l / 2 ^ 24 % 256) (l / 2 ^ 16 % 256) (l / 2 ^ 8 % 256) (l % 256) = l := by
  simp only [be32decode]
  omega

lemma encodeHeader_length (t r1 r2 r3 l : Nat) : (encodeHeader t r1 r2 r3 l).length = 8 := by
  simp [encodeHeader, be32bytes]

lemma encodeFrame_length (f : Frame) : (encodeFrame f).length = 8 + f.payload.length := by
  simp [encodeFrame, encodeHeader, be32bytes]
  omega

lemma mbh_stop {buf : List Nat} {walker : Nat} (h : buf.length - walker < 8) :
    multiplexedBufferHelper buf walker = [] := by
  unfold multiplexedBufferHelper
  simp [h]

lemma mbh_step {buf : List Nat} {walker : Nat} (h : ¬ buf.length - walker < 8) :
    multiplexedBufferHelper buf walker =
      ((buf.drop (walker + 8)).take
          (be32decode ((buf.drop walker).getD 4 0) ((buf.drop walker).getD 5 0)
            ((buf.drop walker).getD 6 0) ((buf.drop walker).getD 7 0))) ::
        multiplexedBufferHelper buf
          (walker + 8 +
            be32decode ((buf.drop walker).getD 4 0) ((buf.drop walker).getD 5 0)
              ((buf.drop walker).getD 6 0) ((buf.drop walker).getD 7 0)) := by
  conv_lhs => unfold multiplexedBufferHelper
  simp [h, STREAM_HEADER_SIZE_BYTES]

/-- The buffered scan depends on the buffer only through its suffix at the
cursor: scanning `buf` from `walker` is scanning `buf.drop walker` from 0. -/
lemma mbh_shift_aux (n : Nat) : ∀ (buf : List Nat) (walker : Nat), buf.length - walker ≤ n →
    multiplexedBufferHelper buf walker = multiplexedBufferHelper (buf.drop walker) 0 := by
  induction n with
  | zero =>
    intro buf walker h
    rw [mbh_stop (by omega), mbh_stop (by simp; omega)]
  | succ n ih =>
    intro buf walker h
    by_cases hc : buf.length - walker < 8
    · rw [mbh_stop hc, mbh_stop (by simp; omega)]
    · have hc' : ¬ (buf.drop walker).length - 0 < 8 := by simp; omega
      rw [mbh_step hc, mbh_step hc']
      simp only [List.drop_zero, Nat.zero_add, List.drop_drop, Nat.add_zero]
      set L := be32decode ((buf.drop walker).getD 4 0) ((buf.drop walker).getD 5 0)
          ((buf.drop walker).getD 6 0) ((buf.drop walker).getD 7 0) with hL
      congr 1
      rw [ih buf (walker + 8 + L) (by omega),
        ih (buf.drop walker) (8 + L) (by simp; omega)]
      rw [List.drop_drop]
      congr 2
      omega

lemma mbh_shift (buf : List Nat) (walker : Nat) :
    multiplexedBufferHelper buf walker = multiplexedBufferHelper (buf.drop walker) 0 :=
  mbh_shift_aux buf.length buf walker (by omega)

/-- A well-formed frame at the head of the buffer is consumed whole by the
buffered scan: its payload is the first chunk, and the scan continues on the
bytes after the frame. -/
lemma demuxBufferedChunks_cons (f : Frame) (rest : List Nat) (hf : WellFormedFrame f) :
    demuxBufferedChunks (encodeFrame f ++ rest) = f.payload :: demuxBufferedChunks rest := by
  have hshape : encodeFrame f ++ rest =
      f.stream_type % 256 :: f.r1 % 256 :: f.r2 % 256 :: f.r3 % 256 ::
        f.payload.length / 2 ^ 24 % 256 :: f.payload.length / 2 ^ 16 % 256 ::
        f.payload.length / 2 ^ 8 % 256 :: f.payload.length % 256 :: (f.payload ++ rest) := by
    simp [encodeFrame, encodeHeader, be32bytes]
  have hlen : (encodeFrame f ++ rest).length = 8 + f.payload.length + rest.length := by
    rw [List.length_append, encodeFrame_length]
  have hc : ¬ (encodeFrame f ++ rest).length - 0 < 8 := by omega
  unfold demuxBufferedChunks
  rw [mbh_step hc]
  simp only [List.drop_zero]
  rw [hshape]
  simp only [List.getD_cons_succ, List.getD_cons_zero]
  rw [be32decode_be32bytes hf]
  have hdrop8 : (f.stream_type % 256 :: f.r1 % 256 :: f.r2 % 256 :: f.r3 % 256 ::
      f.payload.length / 2 ^ 24 % 256 :: f.payload.length / 2 ^ 16 % 256 ::
      f.payload.length / 2 ^ 8 % 256 :: f.payload.length % 256 ::
      (f.payload ++ rest)).drop (0 + 8) = f.payload ++ rest := by
    simp
  rw [hdrop8, List.take_left]
  congr 1
  rw [mbh_shift]
  have hdroprest : (f.stream_type % 256 :: f.r1 % 256 :: f.r2 % 256 :: f.r3 % 256 ::
      f.payload.length / 2 ^ 24 % 256 :: f.payload.length / 2 ^ 16 % 256 ::
      f.payload.length / 2 ^ 8 % 256 :: f.payload.length % 256 ::
      (f.payload ++ rest)).drop (0 + 8 + f.payload.length) = rest := by
    rw [← hshape]
    exact List.drop_left' (by rw [encodeFrame_length])
  rw [hdroprest]

lemma encodeFrames_nil : encodeFrames [] = [] := rfl

lemma encodeFrames_cons (f : Frame) (fs : List Frame) :
    encodeFrames (f :: fs) = encodeFrame f ++ encodeFrames fs := by
  simp [encodeFrames]

/-- The buffered scan consumes a sequence of well-formed frames at the head
of the buffer frame by frame, then scans whatever follows. -/
lemma demuxBufferedChunks_append (fs : List Frame) (tail : List Nat)
    (h : ∀ f ∈ fs, WellFormedFrame f) :
    demuxBufferedChunks (encodeFrames fs ++ tail) =
      fs.map Frame.payload ++ demuxBufferedChunks tail := by
  induction fs with
  | nil => simp [encodeFrames_nil]
  | cons f fs ih =>
    rw [encodeFrames_cons, List.append_assoc,
      demuxBufferedChunks_cons f _ (h f (by simp)),
      ih (fun g hg => h g (by simp [hg]))]
    simp

/-- Fewer than 8 bytes never produce a chunk: the "< 8 remaining" check
stops the scan at once. -/
lemma demuxBufferedChunks_short (tail : List Nat) (h : tail.length < 8) :
    demuxBufferedChunks tail = [] :=
  mbh_stop (by omega)

/-- A full header whose declared payload is only partly present yields
exactly the available payload bytes, after which the scan stops: the cursor
lands past the end of the buffer. -/
lemma demuxBufferedChunks_partial_payload (t r1 r2 r3 l : Nat) (p : List Nat)
    (hl : l < 2 ^ 32) (hp : p.length < l) :
    demuxBufferedChunks (encodeHeader t r1 r2 r3 l ++ p) = [p] := by
  have hshape : encodeHeader t r1 r2 r3 l ++ p =
      t % 256 :: r1 % 256 :: r2 % 256 :: r3 % 256 ::
        l / 2 ^ 24 % 256 :: l / 2 ^ 16 % 256 :: l / 2 ^ 8 % 256 :: l % 256 :: p := by
    simp [encodeHeader, be32bytes]
  have hlen : (encodeHeader t r1 r2 r3 l ++ p).length = 8 + p.length := by
    rw [List.length_append, encodeHeader_length]
  have hc : ¬ (encodeHeader t r1 r2 r3 l ++ p).length - 0 < 8 := by omega
  unfold demuxBufferedChunks
  rw [mbh_step hc]
  simp only [List.drop_zero]
  rw [hshape]
  simp only [List.getD_cons_succ, List.getD_cons_zero]
  rw [be32decode_be32bytes hl]
  have hdrop8 : (t % 256 :: r1 % 256 :: r2 % 256 :: r3 % 256 ::
      l / 2 ^ 24 % 256 :: l / 2 ^ 16 % 256 :: l / 2 ^ 8 % 256 :: l % 256 :: p).drop (0 + 8)
      = p := by simp
  rw [hdrop8, List.take_of_length_le (by omega)]
  have hstop : (t % 256 :: r1 % 256 :: r2 % 256 :: r3 % 256 ::
      l / 2 ^ 24 % 256 :: l / 2 ^ 16 % 256 :: l / 2 ^ 8 % 256 :: l % 256 :: p).length
      - (0 + 8 + l) < 8 := by
    simp
    omega
  rw [mbh_stop hstop]

lemma demuxLive_nil : demuxLive [] = Except.ok [] := by
  unfold demuxLive
  simp

/-- A well-formed frame with a nonzero payload at the head of the stream is
consumed whole by the live loop: the payload is emitted and the loop
continues on the bytes after the frame. -/
lemma demuxLive_cons (f : Frame) (rest : List Nat) (hf : WellFormedFrame f)
    (hne : NonemptyFrame f) :
    demuxLive (encodeFrame f ++ rest) =
      (demuxLive rest).map (fun tl => f.payload :: tl) := by
  have hp : 0 < f.payload.length := hne
  have hshape : encodeFrame f ++ rest =
      f.stream_type % 256 :: f.r1 % 256 :: f.r2 % 256 :: f.r3 % 256 ::
        f.payload.length / 2 ^ 24 % 256 :: f.payload.length / 2 ^ 16 % 256 ::
        f.payload.length / 2 ^ 8 % 256 :: f.payload.length % 256 :: (f.payload ++ rest) := by
    simp [encodeFrame, encodeHeader, be32bytes]
  rw [hshape]
  conv_lhs => unfold demuxLive
  simp only [STREAM_HEADER_SIZE_BYTES, List.length_cons, List.length_append,
    List.take_succ_cons, List.take_zero, List.drop_succ_cons, List.drop_zero,
    List.getD_cons_succ, List.getD_cons_zero]
  rw [if_neg (by omega), if_neg (by omega)]
  rw [be32decode_be32bytes hf]
  rw [if_neg (by omega), if_neg (by omega)]
  rw [List.take_left, List.drop_left]

/-- The live loop consumes a sequence of well-formed, nonzero-length frames
at the head of the stream frame by frame, then proceeds on what follows. -/
lemma demuxLive_append (fs : List Frame) (tail : List Nat)
    (h : ∀ f ∈ fs, WellFormedFrame f ∧ NonemptyFrame f) :
    demuxLive (encodeFrames fs ++ tail) =
      (demuxLive tail).map (fun tl => fs.map Frame.payload ++ tl) := by
  induction fs with
  | nil =>
    rw [encodeFrames_nil, List.nil_append]
    cases demuxLive tail <;> simp [Except.map]
  | cons f fs ih =>
    rw [encodeFrames_cons, List.append_assoc,
      demuxLive_cons f _ (h f (by simp)).1 (h f (by simp)).2,
      ih (fun g hg => h g (by simp [hg]))]
    cases demuxLive tail <;> simp [Except.map]

/-- A frame header declaring length 0 terminates the live loop at once,
whatever bytes follow it on the connection. -/
lemma demuxLive_zeroHeader (t r1 r2 r3 : Nat) (trailing : List Nat) :
    demuxLive (encodeHeader t r1 r2 r3 0 ++ trailing) = Except.ok [] := by
  have hshape : encodeHeader t r1 r2 r3 0 ++ trailing =
      t % 256 :: r1 % 256 :: r2 % 256 :: r3 % 256 :: 0 :: 0 :: 0 :: 0 :: trailing := by
    simp [encodeHeader, be32bytes]
  rw [hshape]
  conv_lhs => unfold demuxLive
  simp only [STREAM_HEADER_SIZE_BYTES, List.length_cons,
    List.take_succ_cons, List.take_zero,
    List.getD_cons_succ, List.getD_cons_zero]
  rw [if_neg (by omega), if_neg (by omega)]
  simp [be32decode]

/-- Each produced chunk costs the scan at least 8 buffer bytes, so the chunk
count is bounded by an eighth of the bytes after the cursor. -/
lemma mbh_count_aux (n : Nat) : ∀ (buf : List Nat) (walker : Nat), buf.length - walker ≤ n →
    8 * (multiplexedBufferHelper buf walker).length ≤ buf.length - walker := by
  induction n with
  | zero =>
    intro buf walker h
    rw [mbh_stop (by omega)]
    simp
  | succ n ih =>
    intro buf walker h
    by_cases hc : buf.length - walker < 8
    · rw [mbh_stop hc]
      simp
    · rw [mbh_step hc]
      have := ih buf
        (walker + 8 + be32decode ((buf.drop walker).getD 4 0) ((buf.drop walker).getD 5 0)
          ((buf.drop walker).getD 6 0) ((buf.drop walker).getD 7 0)) (by omega)
      simp only [List.length_cons]
      omega

/-- A dotted protocol version, numeric per component. -/
abbrev ProtocolVersion := List Nat

/-- Modelled from the spec: strict numeric per-component (lexicographic)
order on dotted protocol versions, the order underlying
`utils.compare_version`, whose source is not part of this tree. -/
def versionLt : ProtocolVersion → ProtocolVersion → Bool
  | [], [] => false
  | [], _ :: _ => true
  | _ :: _, [] => false
  | a :: as, b :: bs => a < b || (a == b && versionLt as bs)

/-- Modelled from the spec: `utils.compare_version(v1, v2)`, whose source is
not part of this tree.  It compares dotted versions numerically per
component and returns -1 when `v1` is the larger version, 1 when `v2` is,
and 0 when they are equal. -/
def compare_version (v1 v2 : ProtocolVersion) : Int :=
  if versionLt v2 v1 then -1 else if versionLt v1 v2 then 1 else 0

/-- The response-consumption strategies `Client.attach` can return: on the
legacy path, the line-oriented plain-text generator (`stream_result`, built
on `iter_lines`) or the materialized raw body (`_result(response,
binary=True)`); on the multiplexed path, the live demultiplexer
(`_multiplexed_response_stream_helper`) or the buffered demultiplexer
joined with an empty separator (`_multiplexed_buffer_helper`). -/
inductive AttachStrategy where
  | rawLines : AttachStrategy
  | rawBody : AttachStrategy
  | liveDemux : AttachStrategy
  | bufferedDemux : AttachStrategy
deriving DecidableEq, Repr

/-- Whether a strategy parses the multiplexed frame format; the two legacy
raw strategies do not. -/
def AttachStrategy.usesFrameParsing : AttachStrategy → Bool
  | AttachStrategy.rawLines => false
  | AttachStrategy.rawBody => false
  | AttachStrategy.liveDemux => true
  | AttachStrategy.bufferedDemux => true

/-- The strategy selection performed by `Client.attach`: versions for which
`utils.compare_version('1.6', self._version) < 0` (i.e. versions below 1.6,
which predate stream multiplexing) take the old-style raw paths; otherwise
the `stream` flag chooses between the live and the buffered demultiplexer. -/
def attachStrategy (version : ProtocolVersion) (stream : Bool) : AttachStrategy :=
  if compare_version [1, 6] version < 0 then
    if stream then AttachStrategy.rawLines else AttachStrategy.rawBody
  else if stream then
    AttachStrategy.liveDemux
  else
    AttachStrategy.bufferedDemux

/-- An observable action on the underlying transport: setting the socket
read timeout (`settimeout`; `none` is "unbounded"), or a raw read of a
requested byte count (`response.raw.read(n)`). -/
inductive TransportEvent where
  | setTimeout : Option Nat → TransportEvent
  | rawRead : Nat → TransportEvent
deriving DecidableEq, Repr

/-- The transport operations issued by the read loop of
`Client._multiplexed_response_stream_helper` on the byte stream `s`: one
8-byte header read per iteration (after which the loop breaks on an empty
header, on a `struct.error`, or on a declared length of 0), then one
payload read, after which the loop breaks on an empty payload read. -/
def liveLoopEvents (s : List Nat) : List TransportEvent :=
  if s.length < STREAM_HEADER_SIZE_BYTES then
    [TransportEvent.rawRead STREAM_HEADER_SIZE_BYTES]
  else
    let header := s.take STREAM_HEADER_SIZE_BYTES
    let length := be32decode (header.getD 4 0) (header.getD 5 0)
      (header.getD 6 0) (header.getD 7 0)
    if length = 0 then
      [TransportEvent.rawRead STREAM_HEADER_SIZE_BYTES]
    else
      let rest := s.drop STREAM_HEADER_SIZE_BYTES
      if rest.length = 0 then
        [TransportEvent.rawRead STREAM_HEADER_SIZE_BYTES, TransportEvent.rawRead length]
      else
        TransportEvent.rawRead STREAM_HEADER_SIZE_BYTES :: TransportEvent.rawRead length ::
          liveLoopEvents (rest.drop length)
termination_by s.length
decreasing_by
  simp only [STREAM_HEADER_SIZE_BYTES, List.length_drop] at *
  omega

/-- The full transport-operation trace of
`Client._multiplexed_response_stream_helper`: the function first disables
the socket read timeout (`socket.settimeout(None)` via
`_get_raw_response_socket`), then runs its read loop. -/
def demuxLiveTrace (s : List Nat) : List TransportEvent :=
  TransportEvent.setTimeout none :: liveLoopEvents s

/-- A streaming-capable HTTP response as the Chunked Raw Reader sees it:
whether the transfer encoding is chunked, whether the HTTP status is an
error (`_raise_for_status` raises), the fully materialized body, and the
transfer-encoding chunks for the chunked case. -/
structure StreamResponse where
  chunked : Bool
  statusError : Bool
  body : List Nat
  chunks : List (List Nat)

/-- `Client._result` (with no json/binary distinction visible in the byte
model): raise for a non-success status, otherwise return the materialized
body. -/
def result (r : StreamResponse) : Except String (List Nat) :=
  if r.statusError then Except.error "APIError" else Except.ok r.body

/-- The chunked branch of `Client._stream_helper`: while the reader is not
closed, read 1 byte (an empty read breaks the loop), read the rest of the
current transfer-encoding chunk, and yield the two reads' concatenation —
i.e. yield each nonempty chunk until a chunk read comes back empty. -/
def streamChunks : List (List Nat) → List (List Nat)
  | [] => []
  | c :: cs => if c.length = 0 then [] else c :: streamChunks cs

/-- `Client._stream_helper`: on a chunked-transfer-encoded response, iterate
the transfer-encoding chunks; on a non-chunked response, yield the fully
materialized body (`_result`, which first raises for an error status) as
the sole element. -/
def streamHelper (r : StreamResponse) : Except String (List (List Nat)) :=
  if r.chunked then
    Except.ok (streamChunks r.chunks)
  else
    (result r).map (fun b => [b])

lemma encodeFrames_append (l1 l2 : List Frame) :
    encodeFrames (l1 ++ l2) = encodeFrames l1 ++ encodeFrames l2 := by
  simp [encodeFrames]

/-- Every transport operation issued by the live read loop is a raw read:
the loop itself never touches the socket timeout. -/
lemma liveLoopEvents_reads_aux (n : Nat) : ∀ (s : List Nat), s.length ≤ n →
    ∀ e ∈ liveLoopEvents s, ∃ k, e = TransportEvent.rawRead k := by
  induction n with
  | zero =>
    intro s hs e he
    unfold liveLoopEvents at he
    rw [if_pos (by simp [STREAM_HEADER_SIZE_BYTES]; omega)] at he
    simp at he
    exact ⟨STREAM_HEADER_SIZE_BYTES, he⟩
  | succ n ih =>
    intro s hs e he
    unfold liveLoopEvents at he
    by_cases hc : s.length < STREAM_HEADER_SIZE_BYTES
    · rw [if_pos hc] at he
      simp at he
      exact ⟨STREAM_HEADER_SIZE_BYTES, he⟩
    · rw [if_neg hc] at he
      simp only at he
      by_cases hz : be32decode ((s.take STREAM_HEADER_SIZE_BYTES).getD 4 0)
          ((s.take STREAM_HEADER_SIZE_BYTES).getD 5 0)
          ((s.take STREAM_HEADER_SIZE_BYTES).getD 6 0)
          ((s.take STREAM_HEADER_SIZE_BYTES).getD 7 0) = 0
      · rw [if_pos hz] at he
        simp at he
        exact ⟨STREAM_HEADER_SIZE_BYTES, he⟩
      · rw [if_neg hz] at he
        by_cases hr : (s.drop STREAM_HEADER_SIZE_BYTES).length = 0
        · rw [if_pos hr] at he
          simp at he
          rcases he with he | he
          · exact ⟨STREAM_HEADER_SIZE_BYTES, he⟩
          · exact ⟨_, he⟩
        · rw [if_neg hr] at he
          simp only [List.mem_cons] at he
          rcases he with he | he | he
          · exact ⟨STREAM_HEADER_SIZE_BYTES, he⟩
          · exact ⟨_, he⟩
          · exact ih ((s.drop STREAM_HEADER_SIZE_BYTES).drop _)
              (by simp [STREAM_HEADER_SIZE_BYTES] at *; omega) e he

lemma liveLoopEvents_reads (s : List Nat) :
    ∀ e ∈ liveLoopEvents s, ∃ k, e = TransportEvent.rawRead k :=
  liveLoopEvents_reads_aux s.length s (by omega)

/-- C1: for every finite sequence of well-formed frames, the buffered
demultiplexer applied to the concatenation of their wire encodings (1 tag
byte, 3 reserved bytes, 4-byte big-endian length, then the payload, per
frame) returns the concatenation of their payloads, in order. -/
theorem C1_demuxBuffered_roundtrip (fs : List Frame) (h : ∀ f ∈ fs, WellFormedFrame f) :
    demuxBufferedJoin (encodeFrames fs) = (fs.map Frame.payload).flatten := by
  unfold demuxBufferedJoin
  have hb := demuxBufferedChunks_append fs [] h
  rw [List.append_nil] at hb
  rw [hb, demuxBufferedChunks_short [] (by simp)]
  simp

/-- C1 witness: the spec's scenario, frames (1, "hello ") and (1, "world")
demultiplex to "hello world". -/
theorem C1_demuxBuffered_roundtrip_witness :
    (∀ f ∈ ([⟨1, 0, 0, 0, [104, 101, 108, 108, 111, 32]⟩,
          ⟨1, 0, 0, 0, [119, 111, 114, 108, 100]⟩] : List Frame), WellFormedFrame f) ∧
      demuxBufferedJoin (encodeFrames
          [⟨1, 0, 0, 0, [104, 101, 108, 108, 111, 32]⟩,
            ⟨1, 0, 0, 0, [119, 111, 114, 108, 100]⟩]) =
        [104, 101, 108, 108, 111, 32, 119, 111, 114, 108, 100] :=
  ⟨by decide, by rw [C1_demuxBuffered_roundtrip _ (by decide)]; rfl⟩

/-- C2: a connection delivering the encoded bytes of nonzero-length frames
in arbitrary, frame-boundary-agnostic chunks (any `cs` flattening to the
encoded buffer) makes the live demultiplexer produce exactly the chunk
sequence the buffered demultiplexer extracts from the complete buffer. -/
theorem C2_live_refines_buffered (fs : List Frame) (cs : List (List Nat))
    (h : ∀ f ∈ fs, WellFormedFrame f ∧ NonemptyFrame f)
    (hcs : cs.flatten = encodeFrames fs) :
    demuxLive cs.flatten = Except.ok (demuxBufferedChunks (encodeFrames fs)) := by
  rw [hcs]
  have hl := demuxLive_append fs [] h
  rw [List.append_nil] at hl
  have hb := demuxBufferedChunks_append fs [] (fun f hf => (h f hf).1)
  rw [List.append_nil] at hb
  rw [hl, demuxLive_nil, hb, demuxBufferedChunks_short [] (by simp)]
  simp [Except.map]

/-- C2 witness: one frame delivered in chunks cutting through the header
and through the payload. -/
theorem C2_live_refines_buffered_witness :
    (∀ f ∈ ([⟨1, 0, 0, 0, [97, 98]⟩] : List Frame), WellFormedFrame f ∧ NonemptyFrame f) ∧
      ([[1, 0], [0, 0, 0, 0], [0, 2, 97], [98]] : List (List Nat)).flatten =
        encodeFrames [⟨1, 0, 0, 0, [97, 98]⟩] ∧
      demuxLive ([[1, 0], [0, 0, 0, 0], [0, 2, 97], [98]] : List (List Nat)).flatten =
        Except.ok (demuxBufferedChunks (encodeFrames [⟨1, 0, 0, 0, [97, 98]⟩])) :=
  ⟨by decide, by decide, C2_live_refines_buffered _ _ (by decide) (by decide)⟩

/-- C3: the live demultiplexer terminates its output sequence as soon as it
reads a header declaring length 0, yielding nothing further, no matter what
bytes — in particular further well-formed frames — follow on the
connection. -/
theorem C3_live_zero_length_frame_terminates (fs : List Frame) (t r1 r2 r3 : Nat)
    (trailing : List Nat) (h : ∀ f ∈ fs, WellFormedFrame f ∧ NonemptyFrame f) :
    demuxLive (encodeFrames fs ++ (encodeHeader t r1 r2 r3 0 ++ trailing)) =
      Except.ok (fs.map Frame.payload) := by
  rw [demuxLive_append fs _ h, demuxLive_zeroHeader]
  simp [Except.map]

/-- C3 witness: a zero-length header after one frame stops the sequence even
though a further well-formed frame follows. -/
theorem C3_live_zero_length_frame_terminates_witness :
    (∀ f ∈ ([⟨1, 0, 0, 0, [5]⟩] : List Frame), WellFormedFrame f ∧ NonemptyFrame f) ∧
      demuxLive (encodeFrames [⟨1, 0, 0, 0, [5]⟩] ++
          (encodeHeader 1 0 0 0 0 ++ encodeFrames [⟨2, 0, 0, 0, [9]⟩])) =
        Except.ok [[5]] :=
  ⟨by decide,
    C3_live_zero_length_frame_terminates [⟨1, 0, 0, 0, [5]⟩] 1 0 0 0 _ (by decide)⟩

/-- C4: appending a truncated tail to a valid buffer is absorbed silently by
the buffered demultiplexer: a partial header (fewer than 8 bytes) changes
nothing, and a full header whose declared payload is only partly present
contributes exactly the available payload bytes; no error is possible (the
scan is a total function into chunk lists). -/
theorem C4_truncated_tail_absorbed (fs : List Frame) (h : ∀ f ∈ fs, WellFormedFrame f) :
    (∀ T : List Nat, T.length < 8 →
        demuxBufferedJoin (encodeFrames fs ++ T) = demuxBufferedJoin (encodeFrames fs)) ∧
      (∀ t r1 r2 r3 l : Nat, ∀ p : List Nat, l < 2 ^ 32 → p.length < l →
        demuxBufferedJoin (encodeFrames fs ++ (encodeHeader t r1 r2 r3 l ++ p)) =
          demuxBufferedJoin (encodeFrames fs) ++ p) := by
  have hbase := demuxBufferedChunks_append fs [] h
  rw [List.append_nil] at hbase
  constructor
  · intro T hT
    unfold demuxBufferedJoin
    rw [demuxBufferedChunks_append fs T h, demuxBufferedChunks_short T hT,
      hbase, demuxBufferedChunks_short [] (by simp)]
  · intro t r1 r2 r3 l p hl hp
    unfold demuxBufferedJoin
    rw [demuxBufferedChunks_append fs _ h,
      demuxBufferedChunks_partial_payload t r1 r2 r3 l p hl hp,
      hbase, demuxBufferedChunks_short [] (by simp)]
    simp

/-- C4 witness: after one valid frame, a 3-byte partial header is dropped,
and a header declaring 4 payload bytes of which only 2 are present
contributes exactly those 2 bytes. -/
theorem C4_truncated_tail_absorbed_witness :
    (∀ f ∈ ([⟨1, 0, 0, 0, [7]⟩] : List Frame), WellFormedFrame f) ∧
      ((3 : Nat) < 8 ∧
        demuxBufferedJoin (encodeFrames [⟨1, 0, 0, 0, [7]⟩] ++ [9, 9, 9]) =
          demuxBufferedJoin (encodeFrames [⟨1, 0, 0, 0, [7]⟩])) ∧
      ((4 : Nat) < 2 ^ 32 ∧ (2 : Nat) < 4 ∧
        demuxBufferedJoin (encodeFrames [⟨1, 0, 0, 0, [7]⟩] ++
            (encodeHeader 2 0 0 0 4 ++ [1, 2])) =
          demuxBufferedJoin (encodeFrames [⟨1, 0, 0, 0, [7]⟩]) ++ [1, 2]) :=
  ⟨by decide,
    ⟨by decide, (C4_truncated_tail_absorbed _ (by decide)).1 [9, 9, 9] (by decide)⟩,
    ⟨by decide, by decide,
      (C4_truncated_tail_absorbed _ (by decide)).2 2 0 0 0 4 [1, 2] (by decide) (by decide)⟩⟩

/-- `compare_version` reports a negative result exactly when its second
version is the strictly smaller one. -/
lemma compare_version_lt_zero (v1 v2 : ProtocolVersion) :
    compare_version v1 v2 < 0 ↔ versionLt v2 v1 = true := by
  unfold compare_version
  by_cases h : versionLt v2 v1 <;> by_cases h2 : versionLt v1 v2 <;> simp [h, h2]

/-- C5: `attach` selects its consumption strategy from the negotiated
version: below the 1.6 multiplexing threshold it uses the legacy raw
reader, which does no frame parsing (line-oriented when streaming); at or
above the threshold it uses the live demultiplexer when a streaming result
was requested and the buffered demultiplexer otherwise. -/
theorem C5_attach_strategy_selection (v : ProtocolVersion) (stream : Bool) :
    (versionLt v [1, 6] = true →
        (attachStrategy v stream).usesFrameParsing = false ∧
          attachStrategy v stream =
            (if stream then AttachStrategy.rawLines else AttachStrategy.rawBody)) ∧
      (versionLt v [1, 6] = false →
        attachStrategy v stream =
          (if stream then AttachStrategy.liveDemux else AttachStrategy.bufferedDemux)) := by
  unfold attachStrategy
  constructor
  · intro h
    rw [if_pos ((compare_version_lt_zero [1, 6] v).mpr h)]
    cases stream <;> simp [AttachStrategy.usesFrameParsing]
  · intro h
    have hnot : ¬ compare_version [1, 6] v < 0 := by
      intro hlt
      rw [(compare_version_lt_zero [1, 6] v).mp hlt] at h
      exact Bool.noConfusion h
    rw [if_neg hnot]

/-- C5 witness: version 1.5 takes the raw paths, version 1.7 the
demultiplexers. -/
theorem C5_attach_strategy_selection_witness :
    (versionLt [1, 5] [1, 6] = true ∧
        (attachStrategy [1, 5] true).usesFrameParsing = false ∧
        attachStrategy [1, 5] true = AttachStrategy.rawLines) ∧
      (versionLt [1, 7] [1, 6] = false ∧
        attachStrategy [1, 7] false = AttachStrategy.bufferedDemux) :=
  ⟨⟨by decide, ((C5_attach_strategy_selection [1, 5] true).1 (by decide)).1,
      ((C5_attach_strategy_selection [1, 5] true).1 (by decide)).2⟩,
    ⟨by decide, (C5_attach_strategy_selection [1, 7] false).2 (by decide)⟩⟩

/-- C6: the live demultiplexer's very first transport operation — before
any header byte is read — is disabling the socket read timeout, and every
later operation in its trace is a raw read, so the timeout change happens
exactly once. -/
theorem C6_timeout_disabled_before_first_read (s : List Nat) :
    (demuxLiveTrace s).head? = some (TransportEvent.setTimeout none) ∧
      ∀ e ∈ (demuxLiveTrace s).tail, ∃ k, e = TransportEvent.rawRead k := by
  constructor
  · rfl
  · intro e he
    exact liveLoopEvents_reads s e he

lemma liveLoopEvents_nil :
    liveLoopEvents [] = [TransportEvent.rawRead STREAM_HEADER_SIZE_BYTES] := by
  unfold liveLoopEvents
  simp [STREAM_HEADER_SIZE_BYTES]

/-- C6 witness: on the empty stream the trace is the timeout change followed
by the one header read that hits EOF. -/
theorem C6_timeout_disabled_before_first_read_witness :
    (demuxLiveTrace []).head? = some (TransportEvent.setTimeout none) ∧
      (∃ k, TransportEvent.rawRead 8 = TransportEvent.rawRead k) :=
  ⟨(C6_timeout_disabled_before_first_read []).1,
    (C6_timeout_disabled_before_first_read []).2 (TransportEvent.rawRead 8)
      (by rw [demuxLiveTrace, List.tail_cons, liveLoopEvents_nil]; simp [STREAM_HEADER_SIZE_BYTES])⟩

/-- C7: on a response that is not chunked-transfer-encoded (and whose status
raises no error), the stream helper yields exactly one element: the full
materialized body. -/
theorem C7_nonchunked_yields_single_body (r : StreamResponse)
    (hch : r.chunked = false) (hst : r.statusError = false) :
    streamHelper r = Except.ok [r.body] := by
  unfold streamHelper result
  rw [hch, hst]
  simp [Except.map]

/-- C7 witness. -/
theorem C7_nonchunked_yields_single_body_witness :
    (StreamResponse.chunked ⟨false, false, [5, 6], []⟩ = false) ∧
      (StreamResponse.statusError ⟨false, false, [5, 6], []⟩ = false) ∧
      streamHelper ⟨false, false, [5, 6], []⟩ = Except.ok [[5, 6]] :=
  ⟨rfl, rfl, C7_nonchunked_yields_single_body ⟨false, false, [5, 6], []⟩ rfl rfl⟩

/-- C8 counterexample: a frame with channel tag 7 and payload [1, 2, 3]
demultiplexes — buffered and live — to the bare payload; the tag byte 7 is
nowhere in the output, so the claim that the tag is delivered to the caller
alongside the payload is false. -/
theorem C8_counterexample :
    demuxBufferedChunks (encodeFrames [⟨7, 0, 0, 0, [1, 2, 3]⟩]) = [[1, 2, 3]] ∧
      demuxLive (encodeFrames [⟨7, 0, 0, 0, [1, 2, 3]⟩]) = Except.ok [[1, 2, 3]] ∧
      7 ∉ demuxBufferedJoin (encodeFrames [⟨7, 0, 0, 0, [1, 2, 3]⟩]) := by
  have hb : demuxBufferedChunks (encodeFrames [⟨7, 0, 0, 0, [1, 2, 3]⟩]) = [[1, 2, 3]] := by
    rw [encodeFrames_cons, encodeFrames_nil,
      demuxBufferedChunks_cons _ _ (by decide),
      demuxBufferedChunks_short [] (by simp)]
  refine ⟨hb, ?_, ?_⟩
  · rw [encodeFrames_cons, encodeFrames_nil,
      demuxLive_cons _ _ (by decide) (by decide), demuxLive_nil]
    rfl
  · rw [demuxBufferedJoin, hb]
    decide

/-- C8 amended: both demultiplexers parse the channel tag byte but discard
it — for any sequence of well-formed nonzero-length frames their outputs
are exactly the frames' payload chunks, independent of the tags, which are
neither delivered to the caller nor interpreted. -/
theorem C8_amended_tag_discarded (fs : List Frame)
    (h : ∀ f ∈ fs, WellFormedFrame f ∧ NonemptyFrame f) :
    demuxBufferedChunks (encodeFrames fs) = fs.map Frame.payload ∧
      demuxLive (encodeFrames fs) = Except.ok (fs.map Frame.payload) := by
  have hb := demuxBufferedChunks_append fs [] (fun f hf => (h f hf).1)
  rw [List.append_nil] at hb
  have hl := demuxLive_append fs [] h
  rw [List.append_nil] at hl
  rw [hb, hl, demuxBufferedChunks_short [] (by simp), demuxLive_nil]
  exact ⟨by simp, by simp [Except.map]⟩

/-- C8 amended witness: two frames with distinct tags come out as bare
payloads. -/
theorem C8_amended_tag_discarded_witness :
    (∀ f ∈ ([⟨9, 0, 0, 0, [4]⟩, ⟨2, 0, 0, 0, [5, 6]⟩] : List Frame),
        WellFormedFrame f ∧ NonemptyFrame f) ∧
      (demuxBufferedChunks (encodeFrames [⟨9, 0, 0, 0, [4]⟩, ⟨2, 0, 0, 0, [5, 6]⟩]) =
          [[4], [5, 6]] ∧
        demuxLive (encodeFrames [⟨9, 0, 0, 0, [4]⟩, ⟨2, 0, 0, 0, [5, 6]⟩]) =
          Except.ok [[4], [5, 6]]) :=
  ⟨by decide, C8_amended_tag_discarded _ (by decide)⟩

/-- C9: the buffered demultiplexer does not treat a zero-length frame as a
terminator: it contributes an empty chunk and the scan continues, so the
joined result still contains the payloads of the frames that follow —
while the live demultiplexer, fed the same bytes, stops at the zero-length
frame and omits them. -/
theorem C9_buffered_continues_after_zero_frame (fs1 fs2 : List Frame) (t r1 r2 r3 : Nat)
    (h1 : ∀ f ∈ fs1, WellFormedFrame f ∧ NonemptyFrame f)
    (h2 : ∀ f ∈ fs2, WellFormedFrame f) :
    demuxBufferedJoin (encodeFrames (fs1 ++ ⟨t, r1, r2, r3, []⟩ :: fs2)) =
        (fs1.map Frame.payload).flatten ++ (fs2.map Frame.payload).flatten ∧
      demuxLive (encodeFrames (fs1 ++ ⟨t, r1, r2, r3, []⟩ :: fs2)) =
        Except.ok (fs1.map Frame.payload) := by
  constructor
  · unfold demuxBufferedJoin
    have hall : ∀ f ∈ fs1 ++ ⟨t, r1, r2, r3, []⟩ :: fs2, WellFormedFrame f := by
      intro f hf
      rcases List.mem_append.mp hf with hf | hf
      · exact (h1 f hf).1
      · rcases List.mem_cons.mp hf with hf | hf
        · rw [hf]; exact (by decide : (0 : Nat) < 2 ^ 32)
        · exact h2 f hf
    have hb := demuxBufferedChunks_append (fs1 ++ ⟨t, r1, r2, r3, []⟩ :: fs2) [] hall
    rw [List.append_nil] at hb
    rw [hb, demuxBufferedChunks_short [] (by simp)]
    simp
  · rw [encodeFrames_append, encodeFrames_cons]
    have hz : encodeFrame ⟨t, r1, r2, r3, []⟩ ++ encodeFrames fs2 =
        encodeHeader t r1 r2 r3 0 ++ encodeFrames fs2 := by
      simp [encodeFrame]
    rw [hz, demuxLive_append fs1 _ h1, demuxLive_zeroHeader]
    simp [Except.map]

/-- C9 witness: buffered sees the frame after the zero-length frame, live
does not. -/
theorem C9_buffered_continues_after_zero_frame_witness :
    (∀ f ∈ ([⟨1, 0, 0, 0, [5]⟩] : List Frame), WellFormedFrame f ∧ NonemptyFrame f) ∧
      (∀ f ∈ ([⟨1, 0, 0, 0, [6]⟩] : List Frame), WellFormedFrame f) ∧
      (demuxBufferedJoin (encodeFrames ([⟨1, 0, 0, 0, [5]⟩] ++ ⟨0, 0, 0, 0, []⟩ ::
            [⟨1, 0, 0, 0, [6]⟩])) = [5, 6] ∧
        demuxLive (encodeFrames ([⟨1, 0, 0, 0, [5]⟩] ++ ⟨0, 0, 0, 0, []⟩ ::
            [⟨1, 0, 0, 0, [6]⟩])) = Except.ok [[5]]) :=
  ⟨by decide, by decide,
    C9_buffered_continues_after_zero_frame [⟨1, 0, 0, 0, [5]⟩] [⟨1, 0, 0, 0, [6]⟩]
      0 0 0 0 (by decide) (by decide)⟩

/-- C10: the buffered scan terminates on every finite buffer — it is a
total function in this development — and its iteration count is bounded:
every yielded chunk costs at least 8 buffer bytes, so at most
`buf.length / 8` chunks are produced (one final header check then ends the
loop). -/
theorem C10_buffered_scan_bounded (buf : List Nat) :
    (demuxBufferedChunks buf).length ≤ buf.length / 8 := by
  have hc := mbh_count_aux buf.length buf 0 (by omega)
  unfold demuxBufferedChunks
  omega

end DockerClient
